import Mathlib

/-!
Verification of `libyul/optimiser/UnusedFunctionsCommon.h` (solidity):
a shallow embedding of `applyBooleanMask`, `wasPruned` and
`createReplacement`, with theorems about the stub-generation transform
that splits a Yul function into an arity-reduced function plus a
forwarding stub.
-/

namespace UnusedFunctionsCommon

/-- Modelled from the spec: source-location metadata as carried by every
AST node (`langutil::SourceLocation` is outside the provided sources);
it is opaque diagnostic data, so we represent it by a natural number. -/
abbrev SourceLocation := Nat

/-- Modelled from the spec: a `(name, type)` pair with source location;
parameters and return variables are both represented this way
(`TypedName` of `AsmData.h`, outside the provided sources). -/
structure TypedName where
  location : SourceLocation
  name : String
  type : String
deriving Repr, DecidableEq

/-- Modelled from the spec: an identifier expression node
(`Identifier` of `AsmData.h`, outside the provided sources). -/
structure Identifier where
  location : SourceLocation
  name : String
deriving Repr, DecidableEq

/-- Modelled from the spec: a literal node (`Literal` of `AsmData.h`,
outside the provided sources). -/
structure Literal where
  location : SourceLocation
  value : String
  type : String
deriving Repr, DecidableEq

/-- Modelled from the spec: the closed set of Yul expression variants
(`Expression = std::variant<FunctionCall, Identifier, Literal>` of
`AsmData.h`, outside the provided sources). A `functionCall` carries its
location, its callee identifier and its argument list. -/
inductive Expression where
  | functionCall (location : SourceLocation) (functionName : Identifier)
      (arguments : List Expression)
  | identifier (i : Identifier)
  | literal (l : Literal)

/-- Modelled from the spec: the closed set of Yul statement variants
(`Statement` of `AsmData.h`, outside the provided sources). Blocks inside
statements are inlined as a location together with a statement list;
nested function definitions likewise carry their fields inline. -/
inductive Statement where
  | expressionStatement (location : SourceLocation) (expression : Expression)
  | assignment (location : SourceLocation) (variableNames : List Identifier)
      (value : Expression)
  | variableDeclaration (location : SourceLocation)
      (vars : List TypedName) (value : Option Expression)
  | functionDefinitionStmt (location : SourceLocation) (name : String)
      (parameters returnVariables : List TypedName)
      (bodyLocation : SourceLocation) (bodyStatements : List Statement)
  | ifStmt (location : SourceLocation) (condition : Expression)
      (bodyLocation : SourceLocation) (bodyStatements : List Statement)
  | switchStmt (location : SourceLocation) (expression : Expression)
      (cases : List (Option Literal × SourceLocation × List Statement))
  | forLoop (location : SourceLocation)
      (preLocation : SourceLocation) (pre : List Statement)
      (condition : Expression)
      (postLocation : SourceLocation) (post : List Statement)
      (bodyLocation : SourceLocation) (bodyStatements : List Statement)
  | breakStmt (location : SourceLocation)
  | continueStmt (location : SourceLocation)
  | leaveStmt (location : SourceLocation)
  | blockStmt (location : SourceLocation) (statements : List Statement)

/-- Modelled from the spec: a brace-delimited block — a source location
plus an ordered sequence of statements (`Block` of `AsmData.h`, outside
the provided sources). -/
structure Block where
  location : SourceLocation
  statements : List Statement

/-- Modelled from the spec: a named function with ordered typed
parameters, ordered typed return variables and a body block
(`FunctionDefinition` of `AsmData.h`, outside the provided sources). -/
structure FunctionDefinition where
  location : SourceLocation
  name : String
  parameters : List TypedName
  returnVariables : List TypedName
  body : Block

/-- The pure positional filter at the core of `applyBooleanMask`: walk the
sequence and the mask in lockstep, keeping exactly the elements at `true`
positions (the C++ loop `for i < mask.size, if mask[i] push vec[i]`,
specialised to equal-length inputs as guaranteed by the assertion). -/
def maskFilter {α : Type} : List α → List Bool → List α
  | x :: xs, b :: bs => if b then x :: maskFilter xs bs else maskFilter xs bs
  | _, _ => []

/-- `applyBooleanMask` from `UnusedFunctionsCommon.h`: asserts
(`yulAssert`) that the sequence and the mask have equal length — modelled
as returning `none` on the assertion failure — and otherwise returns the
mask-filtered sequence. -/
def applyBooleanMask {α : Type} (vec : List α) (mask : List Bool) :
    Option (List α) :=
  if vec.length = mask.length then
    some (maskFilter vec mask)
  else
    none

/-- `wasPruned` from `UnusedFunctionsCommon.h`: the body qualifies when it
is empty, or is a single assignment whose value is a non-builtin function
call, or a single expression-statement that is a non-builtin function
call. The dialect's builtin predicate is passed as a boolean query on the
callee name. -/
def wasPruned (f : FunctionDefinition) (builtin : String → Bool) : Bool :=
  match f.body.statements with
  | [] => true
  | [e] =>
    match e with
    | Statement.assignment _ _ value =>
      match value with
      | Expression.functionCall _ functionName _ => !builtin functionName.name
      | _ => false
    | Statement.expressionStatement _ expr =>
      match expr with
      | Expression.functionCall _ functionName _ => !builtin functionName.name
      | _ => false
    | _ => false
  | _ => false

/-- The two assertion failures `createReplacement` can run into:
a rename-table lookup miss (`_inverseTranslations.at` throwing) and a
mask-length mismatch inside `applyBooleanMask` (`yulAssert`). -/
inductive TransformError where
  | renameMiss
  | maskMismatch
deriving Repr, DecidableEq

/-- Modelled from the spec: the fresh-name service (`NameDispenser`,
outside the provided sources) exposes `newName(hint) -> freshName` and is
the one shared mutable resource; we thread its state `σ` explicitly, the
service being a function from state and hint to the fresh name and the
next state. -/
def NameService (σ : Type) : Type := σ → String → String × σ

/-- `util::applyMap(_list, generateName)` from `createReplacement`:
generate a fresh `TypedName` for every entry in order, keeping each
entry's location and type and replacing its name by a fresh name drawn
from the service seeded with the entry's original name as hint, threading
the service state left to right. -/
def generateNames {σ : Type} (svc : NameService σ) (d : σ) :
    List TypedName → List TypedName × σ
  | [] => ([], d)
  | t :: rest =>
    let p := svc d t.name
    let r := generateNames svc p.2 rest
    ({ location := t.location, name := p.1, type := t.type } :: r.1, r.2)

/-- One mask dimension of `createReplacement` (the two symmetric
`if (_unusedParameters.count(newName))` blocks): when the canonical name
has a mask in the table, filter both the original list and the renamed
list by it (propagating the `yulAssert` failure of `applyBooleanMask`);
when it is absent, keep both lists unfiltered. -/
def reduceDim (table : String → Option (List Bool)) (key : String)
    (orig renamed : List TypedName) :
    Except TransformError (List TypedName × List TypedName) :=
  match table key with
  | some mask =>
    match applyBooleanMask orig mask, applyBooleanMask renamed mask with
    | some a, some b => Except.ok (a, b)
    | _, _ => Except.error TransformError.maskMismatch
  | none => Except.ok (orig, renamed)

/-- `createReplacement` from `UnusedFunctionsCommon.h`. The C++ function
mutates `_old` in place and returns the new reduced function; we return
the pair `(newFunction, mutatedOld)` together with the final name-service
state, or the assertion failure. Steps, in source order: resolve the
canonical name through the rename table (throws on a miss), generate
fresh names for all parameters then all return variables, mask-filter
each dimension when its table has an entry for the canonical name, build
the new function carrying the original body, and rebuild the original as
a stub whose single statement forwards to the new function —
an assignment to the reduced renamed return variables when the new
function has return variables, a bare expression-statement otherwise. -/
def createReplacement {σ : Type} (old : FunctionDefinition)
    (unusedParameters unusedReturnVariables : String → Option (List Bool))
    (svc : NameService σ) (dispenser : σ)
    (inverseTranslations : String → Option String) :
    Except TransformError (FunctionDefinition × FunctionDefinition × σ) :=
  let loc := old.location
  match inverseTranslations old.name with
  | none => Except.error TransformError.renameMiss
  | some newNm =>
    let rp := generateNames svc dispenser old.parameters
    let renamedParameters := rp.1
    let rr := generateNames svc rp.2 old.returnVariables
    let renamedReturnVariables := rr.1
    match reduceDim unusedParameters newNm old.parameters renamedParameters with
    | Except.error e => Except.error e
    | Except.ok (functionArguments, reducedRenamedParameters) =>
      match reduceDim unusedReturnVariables newNm old.returnVariables
          renamedReturnVariables with
      | Except.error e => Except.error e
      | Except.ok (returnVariables, reducedRenamedReturnVariables) =>
        let newFunction : FunctionDefinition :=
          { location := loc
            name := newNm
            parameters := functionArguments
            returnVariables := returnVariables
            body := old.body }
        let call : Expression :=
          Expression.functionCall loc { location := loc, name := newFunction.name }
            (reducedRenamedParameters.map fun p =>
              Expression.identifier { location := loc, name := p.name })
        let stubStatement : Statement :=
          if newFunction.returnVariables.isEmpty then
            Statement.expressionStatement loc call
          else
            Statement.assignment loc
              (reducedRenamedReturnVariables.map fun r =>
                ({ location := loc, name := r.name } : Identifier))
              call
        let mutatedOld : FunctionDefinition :=
          { location := old.location
            name := old.name
            parameters := renamedParameters
            returnVariables := renamedReturnVariables
            body := { location := loc, statements := [stubStatement] } }
        Except.ok (newFunction, mutatedOld, rr.2)

/-- The spec's description of the mask filter, written from its words:
"returns a new sequence containing `S[i]` for every `i` where `M[i]` is
true, in ascending index order" — positional pairing followed by keeping
the `true` positions. Compared against the source's `maskFilter`. -/
def maskFilterSpec {α : Type} (S : List α) (M : List Bool) : List α :=
  ((S.zip M).filter (fun p => p.2)).map Prod.fst

theorem maskFilter_eq_spec {α : Type} (S : List α) (M : List Bool) :
    maskFilter S M = maskFilterSpec S M := by
  induction S generalizing M with
  | nil => cases M <;> simp [maskFilter, maskFilterSpec]
  | cons x xs ih =>
    cases M with
    | nil => simp [maskFilter, maskFilterSpec]
    | cons b bs =>
      cases b <;> simp [maskFilter, maskFilterSpec, ih]

theorem maskFilter_length {α : Type} (S : List α) (M : List Bool)
    (h : S.length = M.length) :
    (maskFilter S M).length = M.count true := by
  induction S generalizing M with
  | nil =>
    cases M with
    | nil => simp [maskFilter]
    | cons b bs => simp at h
  | cons x xs ih =>
    cases M with
    | nil => simp at h
    | cons b bs =>
      simp only [List.length_cons, Nat.succ.injEq] at h
      cases b <;> simp [maskFilter, List.count_cons, ih bs h]

theorem maskFilter_sublist {α : Type} (S : List α) (M : List Bool) :
    List.Sublist (maskFilter S M) S := by
  induction S generalizing M with
  | nil => cases M <;> simp [maskFilter]
  | cons x xs ih =>
    cases M with
    | nil => simp [maskFilter]
    | cons b bs =>
      cases b with
      | false => exact List.Sublist.cons x (ih bs)
      | true => simpa [maskFilter] using List.Sublist.cons₂ x (ih bs)

theorem maskFilter_all_true {α : Type} (S : List α) (M : List Bool)
    (h : S.length = M.length) (hM : ∀ b ∈ M, b = true) :
    maskFilter S M = S := by
  induction S generalizing M with
  | nil => cases M <;> simp [maskFilter]
  | cons x xs ih =>
    cases M with
    | nil => simp at h
    | cons b bs =>
      simp only [List.length_cons, Nat.succ.injEq] at h
      have hb : b = true := hM b (List.mem_cons_self b bs)
      subst hb
      simp [maskFilter, ih bs h (fun c hc => hM c (List.mem_cons_of_mem _ hc))]

theorem maskFilter_all_false {α : Type} (S : List α) (M : List Bool)
    (hM : ∀ b ∈ M, b = false) :
    maskFilter S M = [] := by
  induction S generalizing M with
  | nil => cases M <;> simp [maskFilter]
  | cons x xs ih =>
    cases M with
    | nil => simp [maskFilter]
    | cons b bs =>
      have hb : b = false := hM b (List.mem_cons_self b bs)
      subst hb
      simp [maskFilter, ih bs (fun c hc => hM c (List.mem_cons_of_mem _ hc))]

theorem applyBooleanMask_eq_some {α : Type} (vec : List α)
    (mask : List Bool) (r : List α) :
    applyBooleanMask vec mask = some r ↔
      vec.length = mask.length ∧ r = maskFilter vec mask := by
  unfold applyBooleanMask
  split
  · simp only [Option.some.injEq]
    constructor
    · intro h; exact ⟨by assumption, h.symm⟩
    · intro h; exact h.2.symm
  · simp only [reduceCtorEq, false_iff, not_and]
    intro h; exact absurd h (by assumption)

/-- C4: for sequences and masks of equal length, `applyBooleanMask`
returns the subsequence consisting of `S[i]` exactly at the indices `i`
where `M[i]` is true, in ascending index order; its length is the number
of `true` entries of the mask, an all-true mask returns the sequence
unchanged, and an all-false mask returns the empty sequence. -/
theorem applyBooleanMask_spec {α : Type} (S : List α) (M : List Bool)
    (h : S.length = M.length) :
    applyBooleanMask S M = some (maskFilterSpec S M) ∧
    (maskFilterSpec S M).length = M.count true ∧
    List.Sublist (maskFilterSpec S M) S ∧
    ((∀ b ∈ M, b = true) → maskFilterSpec S M = S) ∧
    ((∀ b ∈ M, b = false) → maskFilterSpec S M = []) := by
  rw [← maskFilter_eq_spec]
  refine ⟨?_, maskFilter_length S M h, maskFilter_sublist S M,
    maskFilter_all_true S M h, maskFilter_all_false S M⟩
  rw [applyBooleanMask_eq_some]
  exact ⟨h, rfl⟩

/-- Closed witness for C4 at a concrete sequence and mask. -/
theorem applyBooleanMask_spec_witness :
    applyBooleanMask [10, 20, 30] [true, false, true] =
        some (maskFilterSpec [10, 20, 30] [true, false, true]) ∧
    (maskFilterSpec [10, 20, 30] [true, false, true]).length =
        ([true, false, true].count true) ∧
    List.Sublist (maskFilterSpec [10, 20, 30] [true, false, true])
        [10, 20, 30] ∧
    ((∀ b ∈ [true, false, true], b = true) →
        maskFilterSpec [10, 20, 30] [true, false, true] = [10, 20, 30]) ∧
    ((∀ b ∈ [true, false, true], b = false) →
        maskFilterSpec [10, 20, 30] [true, false, true] = []) :=
  applyBooleanMask_spec [10, 20, 30] [true, false, true] (by decide)

/-- C7: `applyBooleanMask` hits its assertion failure exactly when the
sequence and mask lengths differ; with equal lengths it returns
normally. -/
theorem applyBooleanMask_none_iff {α : Type} (vec : List α)
    (mask : List Bool) :
    applyBooleanMask vec mask = none ↔ vec.length ≠ mask.length := by
  unfold applyBooleanMask
  split <;> simp_all

/-- C5: `wasPruned` returns true exactly when the body is empty, or is a
single assignment whose right-hand side is a function call to a
non-builtin name, or a single expression-statement whose expression is a
function call to a non-builtin name; in particular a single statement
calling a dialect builtin yields false. -/
theorem wasPruned_iff (f : FunctionDefinition) (builtin : String → Bool) :
    wasPruned f builtin = true ↔
      f.body.statements = [] ∨
      (∃ aloc vars cloc cname cargs,
        f.body.statements =
          [Statement.assignment aloc vars
            (Expression.functionCall cloc cname cargs)] ∧
        builtin cname.name = false) ∨
      (∃ eloc cloc cname cargs,
        f.body.statements =
          [Statement.expressionStatement eloc
            (Expression.functionCall cloc cname cargs)] ∧
        builtin cname.name = false) := by
  obtain ⟨floc, fname, ps, rs, bloc, stmts⟩ := f
  simp only [wasPruned]
  cases stmts with
  | nil => simp
  | cons s rest =>
    cases rest with
    | cons s2 r2 => simp
    | nil =>
      cases s
      case assignment aloc vars value =>
        cases value with
        | functionCall cloc cname cargs =>
          simp [Bool.not_eq_true']
          aesop
        | identifier i => simp
        | literal l => simp
      case expressionStatement eloc expr =>
        cases expr with
        | functionCall cloc cname cargs =>
          simp [Bool.not_eq_true']
          aesop
        | identifier i => simp
        | literal l => simp
      all_goals simp

/-- C10: `wasPruned` returns false for every body whose single statement
is neither an assignment nor an expression-statement (for instance a
variable declaration initialised by a call), and for every body of two or
more statements. -/
theorem wasPruned_false_of_shape (f : FunctionDefinition)
    (builtin : String → Bool)
    (hne : f.body.statements ≠ [])
    (ha : ∀ aloc vars value,
      f.body.statements ≠ [Statement.assignment aloc vars value])
    (he : ∀ eloc expr,
      f.body.statements ≠ [Statement.expressionStatement eloc expr]) :
    wasPruned f builtin = false := by
  obtain ⟨floc, fname, ps, rs, bloc, stmts⟩ := f
  simp only [wasPruned] at *
  cases stmts with
  | nil => exact absurd rfl hne
  | cons s rest =>
    cases rest with
    | cons s2 r2 => rfl
    | nil =>
      cases s
      case assignment aloc vars value => exact absurd rfl (ha aloc vars value)
      case expressionStatement eloc expr => exact absurd rfl (he eloc expr)
      all_goals rfl

/-- A body consisting of the single variable declaration
`let x := h(a)` — an initializer calling a non-builtin — used to witness
C10. -/
def letCallFunction : FunctionDefinition :=
  { location := 0
    name := "f"
    parameters := []
    returnVariables := []
    body :=
      { location := 1
        statements := [Statement.variableDeclaration 2
          [{ location := 2, name := "x", type := "" }]
          (some (Expression.functionCall 3 { location := 3, name := "h" }
            [Expression.identifier { location := 4, name := "a" }]))] } }

/-- Closed witness for C10: the single-statement variable declaration
`let x := h(a)` does not satisfy the pruning heuristic. -/
theorem wasPruned_false_of_shape_witness :
    wasPruned letCallFunction (fun _ => false) = false :=
  wasPruned_false_of_shape letCallFunction (fun _ => false)
    (by simp [letCallFunction])
    (by intro aloc vars value; simp [letCallFunction])
    (by intro eloc expr; simp [letCallFunction])

theorem generateNames_fst_length {σ : Type} (svc : NameService σ) (d : σ)
    (ts : List TypedName) :
    (generateNames svc d ts).1.length = ts.length := by
  induction ts generalizing d with
  | nil => simp [generateNames]
  | cons t rest ih => simp [generateNames, ih]

theorem generateNames_fst_getElem {σ : Type} (svc : NameService σ) (d : σ)
    (ts : List TypedName) (i : Nat) :
    (generateNames svc d ts).1[i]? = (ts[i]?).map (fun t =>
      { location := t.location
        name := (svc (generateNames svc d (ts.take i)).2 t.name).1
        type := t.type }) := by
  induction ts generalizing d i with
  | nil => simp [generateNames]
  | cons t rest ih =>
    cases i with
    | zero => simp [generateNames]
    | succ n => simp [generateNames, ih]

theorem reduceDim_ok_elim (table : String → Option (List Bool))
    (key : String) (orig renamed a b : List TypedName)
    (h : reduceDim table key orig renamed = Except.ok (a, b)) :
    (match table key with
      | some mask =>
        orig.length = mask.length ∧ renamed.length = mask.length ∧
        a = maskFilter orig mask ∧ b = maskFilter renamed mask
      | none => a = orig ∧ b = renamed) := by
  unfold reduceDim at h
  cases htab : table key with
  | none =>
    rw [htab] at h
    simp only [Except.ok.injEq, Prod.mk.injEq] at h
    exact ⟨h.1.symm, h.2.symm⟩
  | some mask =>
    rw [htab] at h
    simp only at h ⊢
    cases ho : applyBooleanMask orig mask with
    | none => rw [ho] at h; cases hr : applyBooleanMask renamed mask <;>
        rw [hr] at h <;> exact absurd h (by simp)
    | some a0 =>
      rw [ho] at h
      cases hr : applyBooleanMask renamed mask with
      | none => rw [hr] at h; exact absurd h (by simp)
      | some b0 =>
        rw [hr] at h
        simp only [Except.ok.injEq, Prod.mk.injEq] at h
        obtain ⟨ha, hb⟩ := h
        subst ha; subst hb
        obtain ⟨h1, h2⟩ := (applyBooleanMask_eq_some orig mask a0).mp ho
        obtain ⟨h3, h4⟩ := (applyBooleanMask_eq_some renamed mask b0).mp hr
        exact ⟨h1, h3, h2, h4⟩

theorem reduceDim_ok_of (table : String → Option (List Bool))
    (key : String) (orig renamed : List TypedName)
    (hlen : renamed.length = orig.length)
    (hmask : ∀ m, table key = some m → m.length = orig.length) :
    ∃ pr, reduceDim table key orig renamed = Except.ok pr := by
  unfold reduceDim
  cases htab : table key with
  | none => exact ⟨(orig, renamed), rfl⟩
  | some mask =>
    simp only
    have hm := hmask mask htab
    have ho : applyBooleanMask orig mask = some (maskFilter orig mask) := by
      rw [applyBooleanMask_eq_some]; exact ⟨hm.symm, rfl⟩
    have hr : applyBooleanMask renamed mask = some (maskFilter renamed mask) := by
      rw [applyBooleanMask_eq_some]; exact ⟨by rw [hlen, hm], rfl⟩
    rw [ho, hr]
    exact ⟨(maskFilter orig mask, maskFilter renamed mask), rfl⟩

/-- Full characterisation of a successful `createReplacement` run: the
rename lookup hit, both mask dimensions succeeded, and the outputs are
exactly the new reduced function, the mutated stub and the final
name-service state built from those pieces. -/
theorem createReplacement_ok_elim {σ : Type} {old : FunctionDefinition}
    {uP uR : String → Option (List Bool)} {svc : NameService σ} {d : σ}
    {tr : String → Option String} {nf mo : FunctionDefinition} {d2 : σ}
    (h : createReplacement old uP uR svc d tr = Except.ok (nf, mo, d2)) :
    ∃ nn fa redP rv redR,
      tr old.name = some nn ∧
      reduceDim uP nn old.parameters
        (generateNames svc d old.parameters).1 = Except.ok (fa, redP) ∧
      reduceDim uR nn old.returnVariables
        (generateNames svc (generateNames svc d old.parameters).2
          old.returnVariables).1 = Except.ok (rv, redR) ∧
      nf = { location := old.location, name := nn, parameters := fa,
             returnVariables := rv, body := old.body } ∧
      mo = { location := old.location, name := old.name,
             parameters := (generateNames svc d old.parameters).1,
             returnVariables :=
               (generateNames svc (generateNames svc d old.parameters).2
                 old.returnVariables).1,
             body := { location := old.location, statements :=
               [if rv.isEmpty then
                  Statement.expressionStatement old.location
                    (Expression.functionCall old.location
                      { location := old.location, name := nn }
                      (redP.map fun p => Expression.identifier
                        { location := old.location, name := p.name }))
                else
                  Statement.assignment old.location
                    (redR.map fun r =>
                      ({ location := old.location, name := r.name } : Identifier))
                    (Expression.functionCall old.location
                      { location := old.location, name := nn }
                      (redP.map fun p => Expression.identifier
                        { location := old.location, name := p.name }))] } } ∧
      d2 = (generateNames svc (generateNames svc d old.parameters).2
             old.returnVariables).2 := by
  unfold createReplacement at h
  cases htr : tr old.name with
  | none => rw [htr] at h; exact absurd h (by simp)
  | some nn =>
    rw [htr] at h
    simp only at h
    cases hp : reduceDim uP nn old.parameters
        (generateNames svc d old.parameters).1 with
    | error e => rw [hp] at h; exact absurd h (by simp)
    | ok pPr =>
      obtain ⟨fa, redP⟩ := pPr
      rw [hp] at h
      simp only at h
      cases hr : reduceDim uR nn old.returnVariables
          (generateNames svc (generateNames svc d old.parameters).2
            old.returnVariables).1 with
      | error e => rw [hr] at h; exact absurd h (by simp)
      | ok rPr =>
        obtain ⟨rv, redR⟩ := rPr
        rw [hr] at h
        simp only [Except.ok.injEq, Prod.mk.injEq] at h
        obtain ⟨h1, h2, h3⟩ := h
        exact ⟨nn, fa, redP, rv, redR, rfl, hp, hr,
          h1.symm, h2.symm, h3.symm⟩

/-- C2: a successful `createReplacement` leaves the mutated original with
exactly as many parameters and as many return variables as before the
transform, whatever the usage masks. -/
theorem createReplacement_stub_arity {σ : Type} (old : FunctionDefinition)
    (uP uR : String → Option (List Bool)) (svc : NameService σ) (d : σ)
    (tr : String → Option String) (nf mo : FunctionDefinition) (d2 : σ)
    (h : createReplacement old uP uR svc d tr = Except.ok (nf, mo, d2)) :
    mo.parameters.length = old.parameters.length ∧
    mo.returnVariables.length = old.returnVariables.length := by
  obtain ⟨nn, fa, redP, rv, redR, htr, hp, hr, hnf, hmo, hd⟩ :=
    createReplacement_ok_elim h
  subst hmo
  exact ⟨generateNames_fst_length svc d old.parameters,
    generateNames_fst_length svc (generateNames svc d old.parameters).2
      old.returnVariables⟩

/-- C3: the new function produced by a successful `createReplacement` has
as many parameters as the `true` entries of the parameter mask stored
under the canonical name, or the original parameter count when the table
has no entry for it; independently likewise for return variables. -/
theorem createReplacement_new_arity {σ : Type} (old : FunctionDefinition)
    (uP uR : String → Option (List Bool)) (svc : NameService σ) (d : σ)
    (tr : String → Option String) (nf mo : FunctionDefinition) (d2 : σ)
    (h : createReplacement old uP uR svc d tr = Except.ok (nf, mo, d2)) :
    nf.parameters.length = (match uP nf.name with
      | some m => m.count true
      | none => old.parameters.length) ∧
    nf.returnVariables.length = (match uR nf.name with
      | some m => m.count true
      | none => old.returnVariables.length) := by
  obtain ⟨nn, fa, redP, rv, redR, htr, hp, hr, hnf, hmo, hd⟩ :=
    createReplacement_ok_elim h
  have hpe := reduceDim_ok_elim uP nn old.parameters
    (generateNames svc d old.parameters).1 fa redP hp
  have hre := reduceDim_ok_elim uR nn old.returnVariables
    (generateNames svc (generateNames svc d old.parameters).2
      old.returnVariables).1 rv redR hr
  subst hnf
  constructor
  · show fa.length = _
    cases hup : uP nn with
    | none =>
      rw [hup] at hpe
      simp only at hpe ⊢
      rw [hpe.1]
    | some m =>
      rw [hup] at hpe
      simp only at hpe ⊢
      rw [hpe.2.2.1]
      exact maskFilter_length old.parameters m hpe.1
  · show rv.length = _
    cases hur : uR nn with
    | none =>
      rw [hur] at hre
      simp only at hre ⊢
      rw [hre.1]
    | some m =>
      rw [hur] at hre
      simp only at hre ⊢
      rw [hre.2.2.1]
      exact maskFilter_length old.returnVariables m hre.1

/-- C6: `createReplacement` fails with the rename-miss contract violation
exactly when the original's current name is absent from the rename table
— regardless of the dispenser and of the mask tables, so nothing is
renamed or mutated on that failure — and succeeds whenever the name is
present and every mask stored under the canonical name matches the length
of the list it filters. -/
theorem createReplacement_rename_miss {σ : Type} (old : FunctionDefinition)
    (uP uR : String → Option (List Bool)) (svc : NameService σ) (d : σ)
    (tr : String → Option String) :
    (tr old.name = none →
      createReplacement old uP uR svc d tr =
        Except.error TransformError.renameMiss) ∧
    (∀ nn, tr old.name = some nn →
      (∀ m, uP nn = some m → m.length = old.parameters.length) →
      (∀ m, uR nn = some m → m.length = old.returnVariables.length) →
      ∃ pr, createReplacement old uP uR svc d tr = Except.ok pr) := by
  constructor
  · intro htr
    unfold createReplacement
    rw [htr]
  · intro nn htr hP hR
    unfold createReplacement
    rw [htr]
    simp only
    obtain ⟨⟨fa, redP⟩, hp⟩ := reduceDim_ok_of uP nn old.parameters
      (generateNames svc d old.parameters).1
      (generateNames_fst_length svc d old.parameters) hP
    rw [hp]
    simp only
    obtain ⟨⟨rv, redR⟩, hr⟩ := reduceDim_ok_of uR nn old.returnVariables
      (generateNames svc (generateNames svc d old.parameters).2
        old.returnVariables).1
      (generateNames_fst_length svc (generateNames svc d old.parameters).2
        old.returnVariables) hR
    rw [hr]
    exact ⟨_, rfl⟩

/-- C1: after a successful `createReplacement`, the mutated original's
body is exactly one statement: a call whose callee name is exactly the
new function's name and whose arguments are the mask-filtered freshly
generated parameter names in original relative order, with argument count
equal to the new function's parameter count; when the new function has at
least one return variable that statement is an assignment whose targets
are the mask-filtered freshly generated return names (target count equal
to the new function's return count), otherwise a bare
expression-statement wrapping the call. -/
theorem createReplacement_stub_body {σ : Type} (old : FunctionDefinition)
    (uP uR : String → Option (List Bool)) (svc : NameService σ) (d : σ)
    (tr : String → Option String) (nf mo : FunctionDefinition) (d2 : σ)
    (h : createReplacement old uP uR svc d tr = Except.ok (nf, mo, d2)) :
    (let rp := (generateNames svc d old.parameters).1
    let rr := (generateNames svc (generateNames svc d old.parameters).2
      old.returnVariables).1
    let redP := match uP nf.name with
      | some m => maskFilter rp m
      | none => rp
    let redR := match uR nf.name with
      | some m => maskFilter rr m
      | none => rr
    let call := Expression.functionCall old.location
      { location := old.location, name := nf.name }
      (redP.map fun p =>
        Expression.identifier { location := old.location, name := p.name })
    mo.body.statements =
      [if nf.returnVariables.isEmpty then
        Statement.expressionStatement old.location call
      else
        Statement.assignment old.location
          (redR.map fun r =>
            ({ location := old.location, name := r.name } : Identifier))
          call] ∧
    redP.length = nf.parameters.length ∧
    redR.length = nf.returnVariables.length) := by
  obtain ⟨nn, fa, redP, rv, redR, htr, hp, hr, hnf, hmo, hd⟩ :=
    createReplacement_ok_elim h
  have hpe := reduceDim_ok_elim uP nn old.parameters
    (generateNames svc d old.parameters).1 fa redP hp
  have hre := reduceDim_ok_elim uR nn old.returnVariables
    (generateNames svc (generateNames svc d old.parameters).2
      old.returnVariables).1 rv redR hr
  subst hnf hmo
  dsimp only
  have hredP : (match uP nn with
      | some m => maskFilter (generateNames svc d old.parameters).1 m
      | none => (generateNames svc d old.parameters).1) = redP := by
    cases hup : uP nn with
    | none => rw [hup] at hpe; simp only at hpe ⊢; exact hpe.2.symm
    | some m => rw [hup] at hpe; simp only at hpe ⊢; exact hpe.2.2.2.symm
  have hredR : (match uR nn with
      | some m => maskFilter (generateNames svc
          (generateNames svc d old.parameters).2 old.returnVariables).1 m
      | none => (generateNames svc
          (generateNames svc d old.parameters).2 old.returnVariables).1)
      = redR := by
    cases hur : uR nn with
    | none => rw [hur] at hre; simp only at hre ⊢; exact hre.2.symm
    | some m => rw [hur] at hre; simp only at hre ⊢; exact hre.2.2.2.symm
  rw [hredP, hredR]
  refine ⟨rfl, ?_, ?_⟩
  · show redP.length = fa.length
    cases hup : uP nn with
    | none =>
      rw [hup] at hpe; simp only at hpe
      rw [hpe.1, hpe.2, generateNames_fst_length]
    | some m =>
      rw [hup] at hpe; simp only at hpe
      rw [hpe.2.2.1, hpe.2.2.2,
        maskFilter_length old.parameters m hpe.1,
        maskFilter_length _ m hpe.2.1]
  · show redR.length = rv.length
    cases hur : uR nn with
    | none =>
      rw [hur] at hre; simp only at hre
      rw [hre.1, hre.2, generateNames_fst_length]
    | some m =>
      rw [hur] at hre; simp only at hre
      rw [hre.2.2.1, hre.2.2.2,
        maskFilter_length old.returnVariables m hre.1,
        maskFilter_length _ m hre.2.1]

/-- C9: a successful `createReplacement` keeps the mutated original's
name and source location, and for every index the i-th parameter
(respectively return variable) of the stub keeps the i-th original
entry's type and source location, only its name being replaced by the
name the service yields when seeded with the original entry's name as
hint, at the state reached after renaming the preceding entries. -/
theorem createReplacement_frame {σ : Type} (old : FunctionDefinition)
    (uP uR : String → Option (List Bool)) (svc : NameService σ) (d : σ)
    (tr : String → Option String) (nf mo : FunctionDefinition) (d2 : σ)
    (h : createReplacement old uP uR svc d tr = Except.ok (nf, mo, d2)) :
    mo.location = old.location ∧ mo.name = old.name ∧
    mo.parameters.length = old.parameters.length ∧
    mo.returnVariables.length = old.returnVariables.length ∧
    (∀ i : Nat, mo.parameters[i]? = (old.parameters[i]?).map (fun t =>
      { location := t.location
        name := (svc (generateNames svc d (old.parameters.take i)).2
          t.name).1
        type := t.type })) ∧
    (∀ i : Nat, mo.returnVariables[i]? =
      (old.returnVariables[i]?).map (fun t =>
      { location := t.location
        name := (svc (generateNames svc
          (generateNames svc d old.parameters).2
          (old.returnVariables.take i)).2 t.name).1
        type := t.type })) := by
  obtain ⟨nn, fa, redP, rv, redR, htr, hp, hr, hnf, hmo, hd⟩ :=
    createReplacement_ok_elim h
  subst hmo
  refine ⟨rfl, rfl,
    generateNames_fst_length svc d old.parameters,
    generateNames_fst_length svc (generateNames svc d old.parameters).2
      old.returnVariables, ?_, ?_⟩
  · intro i
    exact generateNames_fst_getElem svc d old.parameters i
  · intro i
    exact generateNames_fst_getElem svc
      (generateNames svc d old.parameters).2 old.returnVariables i

/-- A deterministic model of the fresh-name service used for concrete
runs: the state is a counter, and each fresh name is the hint followed by
an underscore and a counter-length run of the letter i. -/
def counterService : NameService Nat :=
  fun n hint => (hint ++ "_" ++ String.mk (List.replicate n 'i'), n + 1)

/-- C8: a function `g` with zero parameters and zero return variables and
no entries in either mask table turns into the stub
`g() { g_inner() }` — a single bare expression-statement wrapping a
zero-argument call — and a new zero-arity function named as the rename
table dictates, carrying the original body. -/
theorem createReplacement_zero_arity :
    createReplacement
      { location := 0, name := "g", parameters := [], returnVariables := [],
        body := { location := 1, statements := [Statement.leaveStmt 2] } }
      (fun _ => none) (fun _ => none) counterService 0
      (fun s => if s = "g" then some "g_inner" else none)
    = Except.ok (
      { location := 0, name := "g_inner", parameters := [],
        returnVariables := [],
        body := { location := 1, statements := [Statement.leaveStmt 2] } },
      { location := 0, name := "g", parameters := [], returnVariables := [],
        body := { location := 0, statements :=
          [Statement.expressionStatement 0
            (Expression.functionCall 0 { location := 0, name := "g_inner" }
              [])] } },
      0) := by
  rfl

/-- Concrete input for the witnesses: `f(a, b) -> (x, y)` with a
single-statement body. -/
def exOld : FunctionDefinition :=
  { location := 10
    name := "f"
    parameters := [⟨11, "a", "u"⟩, ⟨12, "b", "u"⟩]
    returnVariables := [⟨13, "x", "u"⟩, ⟨14, "y", "u"⟩]
    body := { location := 15, statements := [Statement.leaveStmt 16] } }

/-- Parameter-usage table for the witnesses: only the second parameter of
`f_1` is unused. -/
def exUP : String → Option (List Bool) :=
  fun s => if s = "f_1" then some [true, false] else none

/-- Return-usage table for the witnesses: only the first return variable
of `f_1` is unused. -/
def exUR : String → Option (List Bool) :=
  fun s => if s = "f_1" then some [false, true] else none

/-- Rename table for the witnesses: `f` becomes `f_1`. -/
def exTr : String → Option String :=
  fun s => if s = "f" then some "f_1" else none

/-- The reduced function `createReplacement` produces on the concrete
input: `f_1(a) -> (y)` carrying the original body. -/
def exNew : FunctionDefinition :=
  { location := 10
    name := "f_1"
    parameters := [⟨11, "a", "u"⟩]
    returnVariables := [⟨14, "y", "u"⟩]
    body := { location := 15, statements := [Statement.leaveStmt 16] } }

/-- The stub `createReplacement` leaves in place on the concrete input:
full renamed arity, body `y_iii := f_1(a_)`. -/
def exMutated : FunctionDefinition :=
  { location := 10
    name := "f"
    parameters := [⟨11, "a_", "u"⟩, ⟨12, "b_i", "u"⟩]
    returnVariables := [⟨13, "x_ii", "u"⟩, ⟨14, "y_iii", "u"⟩]
    body := { location := 10, statements :=
      [Statement.assignment 10 [{ location := 10, name := "y_iii" }]
        (Expression.functionCall 10 { location := 10, name := "f_1" }
          [Expression.identifier { location := 10, name := "a_" }])] } }

/-- Closed witness for C1 at the concrete input. -/
theorem createReplacement_stub_body_witness :
    (let rp := (generateNames counterService 0 exOld.parameters).1
    let rr := (generateNames counterService
      (generateNames counterService 0 exOld.parameters).2
      exOld.returnVariables).1
    let redP := match exUP exNew.name with
      | some m => maskFilter rp m
      | none => rp
    let redR := match exUR exNew.name with
      | some m => maskFilter rr m
      | none => rr
    let call := Expression.functionCall exOld.location
      { location := exOld.location, name := exNew.name }
      (redP.map fun p =>
        Expression.identifier { location := exOld.location, name := p.name })
    exMutated.body.statements =
      [if exNew.returnVariables.isEmpty then
        Statement.expressionStatement exOld.location call
      else
        Statement.assignment exOld.location
          (redR.map fun r =>
            ({ location := exOld.location, name := r.name } : Identifier))
          call] ∧
    redP.length = exNew.parameters.length ∧
    redR.length = exNew.returnVariables.length) :=
  createReplacement_stub_body exOld exUP exUR counterService 0 exTr
    exNew exMutated 4 (by rfl)

/-- Closed witness for C2 at the concrete input. -/
theorem createReplacement_stub_arity_witness :
    exMutated.parameters.length = exOld.parameters.length ∧
    exMutated.returnVariables.length = exOld.returnVariables.length :=
  createReplacement_stub_arity exOld exUP exUR counterService 0 exTr
    exNew exMutated 4 (by rfl)

/-- Closed witness for C3 at the concrete input. -/
theorem createReplacement_new_arity_witness :
    exNew.parameters.length = (match exUP exNew.name with
      | some m => m.count true
      | none => exOld.parameters.length) ∧
    exNew.returnVariables.length = (match exUR exNew.name with
      | some m => m.count true
      | none => exOld.returnVariables.length) :=
  createReplacement_new_arity exOld exUP exUR counterService 0 exTr
    exNew exMutated 4 (by rfl)

/-- Closed witness for C6: a rename table that misses `f` makes the
transform fail with the rename-miss contract violation, and the full
table with well-formed masks makes it succeed. -/
theorem createReplacement_rename_miss_witness :
    createReplacement exOld exUP exUR counterService 0 (fun _ => none) =
      Except.error TransformError.renameMiss ∧
    (∃ pr, createReplacement exOld exUP exUR counterService 0 exTr =
      Except.ok pr) :=
  ⟨(createReplacement_rename_miss exOld exUP exUR counterService 0
      (fun _ => none)).1 rfl,
   (createReplacement_rename_miss exOld exUP exUR counterService 0
      exTr).2 "f_1" rfl
     (by intro m hm; simp [exUP] at hm; subst hm; rfl)
     (by intro m hm; simp [exUR] at hm; subst hm; rfl)⟩

/-- Closed witness for C9 at the concrete input, checked at parameter
index 0 and return-variable index 1. -/
theorem createReplacement_frame_witness :
    exMutated.location = exOld.location ∧ exMutated.name = exOld.name ∧
    exMutated.parameters.length = exOld.parameters.length ∧
    exMutated.returnVariables.length = exOld.returnVariables.length ∧
    exMutated.parameters[0]? = (exOld.parameters[0]?).map (fun t =>
      { location := t.location
        name := (counterService
          (generateNames counterService 0 (exOld.parameters.take 0)).2
          t.name).1
        type := t.type }) ∧
    exMutated.returnVariables[1]? =
      (exOld.returnVariables[1]?).map (fun t =>
      { location := t.location
        name := (counterService (generateNames counterService
          (generateNames counterService 0 exOld.parameters).2
          (exOld.returnVariables.take 1)).2 t.name).1
        type := t.type }) := by
  have h := createReplacement_frame exOld exUP exUR counterService 0 exTr
    exNew exMutated 4 (by rfl)
  exact ⟨h.1, h.2.1, h.2.2.1, h.2.2.2.1, h.2.2.2.2.1 0, h.2.2.2.2.2 1⟩

end UnusedFunctionsCommon
